import Mathlib

/-!
Shallow embedding of the Agent Execution & Validation Core of
`packages/agent-sdk/python/agent_sdk/base_agent.py` (class `BaseAgent`),
together with theorems settling the specification claims about it.

Python dictionaries are modelled as insertion-ordered association lists
with string keys; Python values as the inductive `PyVal`; Python floats
as rationals; exceptions as `Except`; the wall clock as explicit time
readings passed to `execute`; the `uuid4` task id as an opaque string
parameter.  Event emission to handlers never raises (handler errors are
caught inside `_emit_event`), so lifecycle operations record their
emitted events as a trace list; the handler-level behaviour of
`_emit_event` is modelled separately for the event-bus claims.
-/

namespace AgentSdk

/-- Insertion-ordered association list with string keys, modelling a
Python `dict`. -/
abbrev Dict (α : Type) := List (String × α)

namespace Dict

/-- Lookup: first (and in a well-formed dict, only) binding of `k`. -/
def get? {α : Type} : Dict α → String → Option α
  | [], _ => Option.none
  | (k', v) :: t, k => if k' = k then some v else get? t k

/-- Assignment `d[k] = v`: overwrite in place (Python keeps the key's
insertion position), append at the end when the key is new. -/
def set {α : Type} : Dict α → String → α → Dict α
  | [], k, v => [(k, v)]
  | (k', v') :: t, k, v => if k' = k then (k', v) :: t else (k', v') :: set t k v

/-- Python `d.update(m)` / `{**d, **m}`: merge `m` into `d` key by key,
last write wins. -/
def updateD {α : Type} : Dict α → Dict α → Dict α
  | d, [] => d
  | d, (k, v) :: t => updateD (set d k v) t

/-- Value of the last binding of `k` in the list (what `updateD` makes
stick when the argument binds a key twice). -/
def lastVal {α : Type} : Dict α → String → Option α
  | [], _ => Option.none
  | (k', v) :: t, k =>
    match lastVal t k with
    | some w => some w
    | Option.none => if k' = k then some v else Option.none

theorem get_set_self {α : Type} (d : Dict α) (k : String) (v : α) :
    (d.set k v).get? k = some v := by
  induction d with
  | nil => simp [set, get?]
  | cons h t ih =>
    obtain ⟨k', v'⟩ := h
    by_cases hk : k' = k <;> simp [set, get?, hk, ih]

theorem get_set_other {α : Type} (d : Dict α) (k k' : String) (v : α) (h : k ≠ k') :
    (d.set k v).get? k' = d.get? k' := by
  induction d with
  | nil => simp [set, get?, h]
  | cons hd t ih =>
    obtain ⟨k₀, v₀⟩ := hd
    by_cases hk : k₀ = k
    · subst hk
      simp [set, get?, h, ih]
    · simp only [set, if_neg hk]
      by_cases hk' : k₀ = k' <;> simp [get?, hk', ih]

theorem get_updateD {α : Type} (d m : Dict α) (k : String) :
    (d.updateD m).get? k = (m.lastVal k).or (d.get? k) := by
  induction m generalizing d with
  | nil => simp [updateD, lastVal]
  | cons h t ih =>
    obtain ⟨k₁, v₁⟩ := h
    simp only [updateD, lastVal]
    rw [ih]
    cases hlv : lastVal t k with
    | some w => simp [Option.or]
    | none =>
      by_cases hk : k₁ = k
      · subst hk; simp [get_set_self, Option.or]
      · simp [hk, get_set_other _ _ _ _ hk, Option.or]

end Dict

/-- Python runtime values, as the validator distinguishes them.
Python `float` is modelled as a rational; `none` is Python `None`. -/
inductive PyVal : Type where
  | none : PyVal
  | bool : Bool → PyVal
  | int : Int → PyVal
  | float : ℚ → PyVal
  | str : String → PyVal
  | list : List PyVal → PyVal
  | dict : List (String × PyVal) → PyVal

namespace PyVal

/-- Python `isinstance(v, list)`. -/
def isList : PyVal → Bool
  | .list _ => true
  | _ => false

/-- Python `isinstance(v, dict)`. -/
def isDict : PyVal → Bool
  | .dict _ => true
  | _ => false

/-- Python `isinstance(v, str)`. -/
def isStr : PyVal → Bool
  | .str _ => true
  | _ => false

/-- Python `isinstance(v, (int, float))`.  In Python `bool` is a
subclass of `int`, so booleans satisfy this check. -/
def isNum : PyVal → Bool
  | .int _ => true
  | .float _ => true
  | .bool _ => true
  | _ => false

/-- Python `isinstance(v, bool)`. -/
def isBool : PyVal → Bool
  | .bool _ => true
  | _ => false

/-- Numeric value of a Python number, if the value is one.  Python
`True` compares as `1` and `False` as `0`. -/
def toNum? : PyVal → Option ℚ
  | .bool b => some (if b then 1 else 0)
  | .int n => some (n : ℚ)
  | .float q => some q
  | _ => Option.none

/-- Python `a < b` as the validator uses it: defined for two numbers
(cross-type numeric comparison, booleans as 0/1) and for two strings
(lexicographic); anything else raises `TypeError`, modelled as
`Option.none`. -/
def pyLt (a b : PyVal) : Option Bool :=
  match a.toNum?, b.toNum? with
  | some x, some y => some (decide (x < y))
  | _, _ =>
    match a, b with
    | .str s, .str t => some (decide (s < t))
    | _, _ => Option.none

/-- Python `a > b`, same domain as `pyLt`. -/
def pyGt (a b : PyVal) : Option Bool :=
  match a.toNum?, b.toNum? with
  | some x, some y => some (decide (x > y))
  | _, _ =>
    match a, b with
    | .str s, .str t => some (decide (t < s))
    | _, _ => Option.none

/-- Python `==` restricted to the scalar values the repository's enum
constraints use: numeric cross-type equality (booleans as 0/1),
string equality, `None`.  Containers compare unequal here; no claim
exercises container-valued enum members. -/
def pyEq (a b : PyVal) : Bool :=
  match a.toNum?, b.toNum? with
  | some x, some y => decide (x = y)
  | _, _ =>
    match a, b with
    | .str s, .str t => s == t
    | .none, .none => true
    | _, _ => false

/-- Python `str(v)` for the scalar values the length/pattern
constraints are applied to in this repository.  Formatting of floats
and containers is approximated (tagged), exact for `None`, booleans,
integers and strings; no claim depends on the approximated branches. -/
def pyStr : PyVal → String
  | .none => "None"
  | .bool true => "True"
  | .bool false => "False"
  | .int n => toString n
  | .float q => toString q
  | .str s => s
  | .list _ => "<list>"
  | .dict _ => "<dict>"

end PyVal

/-- Regular expressions, modelling the anchor-free core of the Python
`re` patterns the `pattern` constraint carries. -/
inductive Regex : Type where
  | emp : Regex
  | eps : Regex
  | char : Char → Regex
  | alt : Regex → Regex → Regex
  | cat : Regex → Regex → Regex
  | star : Regex → Regex
deriving DecidableEq

namespace Regex

/-- Whether the expression accepts the empty string. -/
def nullable : Regex → Bool
  | .emp => false
  | .eps => true
  | .char _ => false
  | .alt r₁ r₂ => nullable r₁ || nullable r₂
  | .cat r₁ r₂ => nullable r₁ && nullable r₂
  | .star _ => true

/-- Brzozowski derivative with respect to one character. -/
def rderiv : Regex → Char → Regex
  | .emp, _ => .emp
  | .eps, _ => .emp
  | .char c, a => if c = a then .eps else .emp
  | .alt r₁ r₂, a => .alt (rderiv r₁ a) (rderiv r₂ a)
  | .cat r₁ r₂, a =>
    if nullable r₁ then .alt (.cat (rderiv r₁ a) r₂) (rderiv r₂ a)
    else .cat (rderiv r₁ a) r₂
  | .star r, a => .cat (rderiv r a) (.star r)

/-- Whole-string match: the semantics of Python `re.fullmatch`. -/
def rmatch : Regex → List Char → Bool
  | r, [] => nullable r
  | r, c :: s => rmatch (rderiv r c) s

/-- Semantics of Python `re.match(p, s)` being truthy: the expression
matches some prefix of `s` — the match is anchored at the start of the
string only, not at its end. -/
def matchAtStart : Regex → List Char → Bool
  | r, [] => nullable r
  | r, c :: s => nullable r || matchAtStart (rderiv r c) s

theorem matchAtStart_iff_prefix (r : Regex) (s : List Char) :
    matchAtStart r s = true ↔ ∃ p q, s = p ++ q ∧ rmatch r p = true := by
  induction s generalizing r with
  | nil =>
    constructor
    · intro h
      exact ⟨[], [], rfl, h⟩
    · rintro ⟨p, q, hpq, hm⟩
      obtain ⟨hp, hq⟩ := List.append_eq_nil.mp hpq.symm
      subst hp
      exact hm
  | cons c t ih =>
    simp only [matchAtStart, Bool.or_eq_true, ih]
    constructor
    · rintro (h | ⟨p, q, hpq, hm⟩)
      · exact ⟨[], c :: t, rfl, h⟩
      · exact ⟨c :: p, q, by simp [hpq], hm⟩
    · rintro ⟨p, q, hpq, hm⟩
      cases p with
      | nil =>
        left
        exact hm
      | cons c' p' =>
        right
        obtain ⟨hc, ht⟩ := List.cons_eq_cons.mp hpq
        subst hc
        exact ⟨p', q, ht, hm⟩

end Regex

/-- Declarative constraints of a Field Schema (the `constraints`
mapping of `base_agent.py`).  `pattern` carries the parsed regular
expression; `minLength`/`maxLength` carry the integer bounds the
repository's manifests use. -/
structure Constraints where
  min : Option PyVal
  max : Option PyVal
  minLength : Option Nat
  maxLength : Option Nat
  pattern : Option Regex
  enum : Option (List PyVal)

/-- Constraints mapping holding only a `pattern` entry. -/
def patternOnly (r : Regex) : Constraints :=
  ⟨Option.none, Option.none, Option.none, Option.none, some r, Option.none⟩

/-- Validation failures raised as `ValueError` by the validator, and
the `TypeError` a comparison against an incomparable bound raises;
each carries the offending field path. -/
inductive VErr : Type where
  | typeMismatch : String → String → VErr
  | minViol : String → VErr
  | maxViol : String → VErr
  | minLenViol : String → VErr
  | maxLenViol : String → VErr
  | patternViol : String → VErr
  | enumViol : String → VErr
  | typeErr : String → VErr
  | missingInput : String → VErr
  | missingOutput : String → VErr
deriving DecidableEq

/-- Check `if 'min' in constraints and value < constraints['min']`. -/
def checkMin (v : PyVal) (c : Constraints) (path : String) : Except VErr Unit :=
  match c.min with
  | Option.none => .ok ()
  | some m =>
    match v.pyLt m with
    | Option.none => .error (.typeErr path)
    | some true => .error (.minViol path)
    | some false => .ok ()

/-- Check `if 'max' in constraints and value > constraints['max']`. -/
def checkMax (v : PyVal) (c : Constraints) (path : String) : Except VErr Unit :=
  match c.max with
  | Option.none => .ok ()
  | some m =>
    match v.pyGt m with
    | Option.none => .error (.typeErr path)
    | some true => .error (.maxViol path)
    | some false => .ok ()

/-- Check `if 'minLength' in constraints and len(str(value)) < ...`. -/
def checkMinLength (v : PyVal) (c : Constraints) (path : String) : Except VErr Unit :=
  match c.minLength with
  | Option.none => .ok ()
  | some n => if (v.pyStr).length < n then .error (.minLenViol path) else .ok ()

/-- Check `if 'maxLength' in constraints and len(str(value)) > ...`. -/
def checkMaxLength (v : PyVal) (c : Constraints) (path : String) : Except VErr Unit :=
  match c.maxLength with
  | Option.none => .ok ()
  | some n => if (v.pyStr).length > n then .error (.maxLenViol path) else .ok ()

/-- Check `if 'pattern' in constraints: if not re.match(pattern,
str(value))`.  `re.match` is truthy iff the expression matches a
prefix of the string. -/
def checkPattern (v : PyVal) (c : Constraints) (path : String) : Except VErr Unit :=
  match c.pattern with
  | Option.none => .ok ()
  | some r =>
    if Regex.matchAtStart r (v.pyStr).data then .ok () else .error (.patternViol path)

/-- Check `if 'enum' in constraints and value not in constraints['enum']`. -/
def checkEnum (v : PyVal) (c : Constraints) (path : String) : Except VErr Unit :=
  match c.enum with
  | Option.none => .ok ()
  | some xs => if xs.any (fun x => x.pyEq v) then .ok () else .error (.enumViol path)

/-- Sequencing of two checks, modelling Python's statement sequence
where the first raise aborts the rest. -/
def seqE {ε : Type} (a b : Except ε Unit) : Except ε Unit :=
  match a with
  | .error e => .error e
  | .ok _ => b

theorem seqE_ok {ε : Type} (b : Except ε Unit) : seqE (.ok ()) b = b := rfl

theorem seqE_error {ε : Type} (e : ε) (b : Except ε Unit) :
    seqE (.error e) b = .error e := rfl

/-- `BaseAgent._validate_constraints`: the six checks in source order,
stopping at the first failure (each check raises). -/
def validateConstraints (v : PyVal) (c : Constraints) (path : String) : Except VErr Unit :=
  seqE (checkMin v c path)
    (seqE (checkMax v c path)
      (seqE (checkMinLength v c path)
        (seqE (checkMaxLength v c path)
          (seqE (checkPattern v c path) (checkEnum v c path)))))

/-- Field Schema: `{type, required, constraints}` as
`BaseAgent._validate_value` reads it with `schema.get`.  `Option.none`
for `constraints` covers both an absent and an empty mapping (an empty
dict is falsy, so the source skips the constraint check for it). -/
structure FieldSchema where
  type : Option String
  required : Bool
  constraints : Option Constraints

/-- Type-check sequence of `BaseAgent._validate_value`: the source's
successive `if` statements, each raising on mismatch, so at most the
first failing check is observed.  `isinstance(value, (int, float))`
holds for booleans because Python `bool` is a subclass of `int`. -/
def typeCheck (expected : Option String) (v : PyVal) (path : String) : Except VErr Unit :=
  if expected == some "array" && !v.isList then .error (.typeMismatch path "array")
  else if expected == some "object" && !v.isDict then .error (.typeMismatch path "object")
  else if (expected == some "string" || expected == some "text") && !v.isStr then
    .error (.typeMismatch path "string")
  else if expected == some "number" && !v.isNum then .error (.typeMismatch path "number")
  else if expected == some "boolean" && !v.isBool then .error (.typeMismatch path "boolean")
  else .ok ()

/-- `BaseAgent._validate_value`: type check, then constraints. -/
def validateValue (v : PyVal) (schema : FieldSchema) (path : String) : Except VErr Unit :=
  seqE (typeCheck schema.type v path)
    (match schema.constraints with
     | Option.none => .ok ()
     | some c => validateConstraints v c path)

/-- Loop body of `BaseAgent._validate_input` for one declared input
field: a `required` field missing from the input raises; a present
field is validated; an absent non-required field is skipped. -/
def checkInputField (input : Dict PyVal) (k : String) (schema : FieldSchema) :
    Except VErr Unit :=
  if schema.required && (input.get? k).isNone then .error (.missingInput k)
  else
    match input.get? k with
    | some v => validateValue v schema k
    | Option.none => .ok ()

/-- `BaseAgent._validate_input`: iterate the declared input fields in
manifest order, raising at the first failure. -/
def validateInput (schemas : Dict FieldSchema) (input : Dict PyVal) : Except VErr Unit :=
  match schemas with
  | [] => .ok ()
  | (k, sch) :: t => seqE (checkInputField input k sch) (validateInput t input)

/-- Loop body of `BaseAgent._validate_output` for one declared output
field: any declared field missing from the result raises, with no look
at the schema's `required` flag; a present field is validated. -/
def checkOutputField (output : Dict PyVal) (k : String) (schema : FieldSchema) :
    Except VErr Unit :=
  match output.get? k with
  | Option.none => .error (.missingOutput k)
  | some v => validateValue v schema k

/-- `BaseAgent._validate_output`: iterate the declared output fields in
manifest order, raising at the first failure. -/
def validateOutput (schemas : Dict FieldSchema) (output : Dict PyVal) : Except VErr Unit :=
  match schemas with
  | [] => .ok ()
  | (k, sch) :: t => seqE (checkOutputField output k sch) (validateOutput t output)

/-- `AgentContext` dataclass. -/
structure AgentContext where
  agent_id : String
  session_id : String
  user_id : Option String
  metadata : Dict PyVal

/-- `asdict(context)` as a Python value. -/
def ctxAsVal (ctx : AgentContext) : PyVal :=
  .dict [("agent_id", .str ctx.agent_id), ("session_id", .str ctx.session_id),
         ("user_id", match ctx.user_id with | some u => .str u | Option.none => .none),
         ("metadata", .dict ctx.metadata)]

/-- `AgentHealth` dataclass: status plus mutable `details`/`metrics`
mappings (`metrics` maps names to floats). -/
structure AgentHealth where
  status : String
  details : Dict PyVal
  metrics : Dict ℚ

/-- `asdict(health)` as a Python value. -/
def healthAsVal (h : AgentHealth) : PyVal :=
  .dict [("status", .str h.status), ("details", .dict h.details),
         ("metrics", .dict (h.metrics.map (fun p => (p.1, PyVal.float p.2))))]

/-- One emitted event: `(event_type, payload)` as handed to
`BaseAgent._emit_event`. -/
abbrev Event := String × PyVal

/-- Structured view of the parts of a validated manifest the lifecycle
operations read (`id`, the `inputs`/`outputs` schemas, the default
`config` mapping). -/
structure Manifest where
  id : String
  inputs : Dict FieldSchema
  outputs : Dict FieldSchema
  config : Dict PyVal

/-- Mutable state of a `BaseAgent` instance touched by the lifecycle
operations. -/
structure AgentState where
  context : Option AgentContext
  config : Dict PyVal
  is_running : Bool
  health : AgentHealth

/-- State of a freshly constructed agent (`BaseAgent.__init__`). -/
def initialState : AgentState :=
  ⟨Option.none, [], false, ⟨"healthy", [], []⟩⟩

/-- Failures `execute` can propagate: the `RuntimeError` raised while
not running, a `ValueError` from input/output validation, or an
exception out of the `on_execute` hook. -/
inductive ExecErr : Type where
  | notRunning : ExecErr
  | validation : VErr → ExecErr
  | hookError : String → ExecErr
deriving DecidableEq

/-- `BaseAgent.initialize`: stores the context, merges the caller
config over the manifest's default `config` mapping, sets the running
flag — all BEFORE awaiting the `on_initialize` hook — then, only if
the hook returned, emits `agent:initialized`.  A hook exception
propagates after those state writes have happened. -/
def initializeAgent (man : Manifest) (s : AgentState) (ctx : AgentContext)
    (cfg : Dict PyVal) (hookInit : Except String Unit) :
    Except String Unit × AgentState × List Event :=
  let s' : AgentState :=
    { s with context := some ctx, config := man.config.updateD cfg, is_running := true }
  match hookInit with
  | .error e => (.error e, s', [])
  | .ok () =>
    (.ok (), s',
      [("agent:initialized", .dict [("agent_id", .str man.id), ("context", ctxAsVal ctx)])])

/-- `BaseAgent.shutdown`: clears the running flag BEFORE awaiting the
`on_shutdown` hook, then, only if the hook returned, emits
`agent:shutdown`. -/
def shutdown (man : Manifest) (s : AgentState) (hookShut : Except String Unit) :
    Except String Unit × AgentState × List Event :=
  let s' : AgentState := { s with is_running := false }
  match hookShut with
  | .error e => (.error e, s', [])
  | .ok () => (.ok (), s', [("agent:shutdown", .dict [("agent_id", .str man.id)])])

/-- Body of the `try` block of `BaseAgent.execute` after the
`task:started` emission: validate the input, run the `on_execute`
hook, validate its result. -/
def runTask (man : Manifest) (hook : Dict PyVal → Except String (Dict PyVal))
    (input : Dict PyVal) : Except ExecErr (Dict PyVal) :=
  match validateInput man.inputs input with
  | .error e => .error (.validation e)
  | .ok _ =>
    match hook input with
    | .error e => .error (.hookError e)
    | .ok r =>
      match validateOutput man.outputs r with
      | .error e => .error (.validation e)
      | .ok _ => .ok r

/-- Rendering of `str(error)` for the `task:failed` payload. -/
def errStr : ExecErr → String
  | .notRunning => "Agent is not running"
  | .validation (.typeMismatch path expected) =>
    "Expected " ++ expected ++ " for " ++ path
  | .validation (.minViol path) => "Value for " ++ path ++ " must be >= min"
  | .validation (.maxViol path) => "Value for " ++ path ++ " must be <= max"
  | .validation (.minLenViol path) => "Value for " ++ path ++ " must have length >= minLength"
  | .validation (.maxLenViol path) => "Value for " ++ path ++ " must have length <= maxLength"
  | .validation (.patternViol path) => "Value for " ++ path ++ " does not match pattern"
  | .validation (.enumViol path) => "Value for " ++ path ++ " must be one of the enum"
  | .validation (.typeErr path) => "unorderable types at " ++ path
  | .validation (.missingInput key) => "Required input " ++ key ++ " is missing"
  | .validation (.missingOutput key) => "Required output " ++ key ++ " is missing"
  | .hookError e => e

/-- `BaseAgent.execute`: raise `RuntimeError` when not running (before
any event); otherwise emit exactly one `task:started`, run the guarded
body, and emit exactly one terminal event — `task:completed` carrying
the result on success, `task:failed` carrying `str(error)` on any
failure — whose payload stores `(t1 - t0) * 1000` milliseconds under
the key `execution_time`.  `tid` is the fresh `uuid4` string; `t0`,
`t1` are the two `time.time()` readings (seconds).  The agent state is
not modified by `execute`. -/
def execute (man : Manifest) (s : AgentState)
    (hook : Dict PyVal → Except String (Dict PyVal)) (input : Dict PyVal)
    (tid : String) (t0 t1 : ℚ) : Except ExecErr (Dict PyVal) × List Event :=
  if s.is_running = false then (.error .notRunning, [])
  else
    let started : Event :=
      ("task:started",
       .dict [("task_id", .str tid), ("input", .dict input), ("agent_id", .str man.id)])
    let elapsed : ℚ := (t1 - t0) * 1000
    match runTask man hook input with
    | .ok r =>
      (.ok r,
       [started,
        ("task:completed",
         .dict [("task_id", .str tid), ("result", .dict r),
                ("execution_time", .float elapsed), ("agent_id", .str man.id)])])
    | .error e =>
      (.error e,
       [started,
        ("task:failed",
         .dict [("task_id", .str tid), ("error", .str (errStr e)),
                ("execution_time", .float elapsed), ("agent_id", .str man.id)])])

/-- `BaseAgent.update_health`: a given `status` replaces the current
status wholesale; given `details`/`metrics` mappings are merged
key-by-key into the existing ones (`dict.update`); then a
`health:updated` event carrying `asdict` of the full resulting
snapshot is emitted. -/
def updateHealth (h : AgentHealth) (status : Option String)
    (details : Option (Dict PyVal)) (metrics : Option (Dict ℚ)) :
    AgentHealth × Event :=
  let h₁ := match status with
            | some st => { h with status := st }
            | Option.none => h
  let h₂ := match details with
            | some d => { h₁ with details := h₁.details.updateD d }
            | Option.none => h₁
  let h₃ := match metrics with
            | some m => { h₂ with metrics := h₂.metrics.updateD m }
            | Option.none => h₂
  (h₃, ("health:updated", healthAsVal h₃))

/-- Required top-level manifest keys of `BaseAgent._validate_manifest`. -/
def requiredFields : List String :=
  ["id", "name", "version", "description", "runtime", "inputs", "outputs", "metadata"]

/-- Required keys under the manifest's `metadata` mapping. -/
def requiredMetadata : List String := ["author", "tags", "category"]

/-- Construction failures: the `ValueError`s `_validate_manifest`
raises, plus the `TypeError` Python raises when `metadata` is a value
that does not support the `in` operator. -/
inductive ManifestErr : Type where
  | missingField : String → ManifestErr
  | missingMetadata : String → ManifestErr
  | metadataTypeErr : ManifestErr
deriving DecidableEq

/-- Containment of `needle` in `s` at any position (Python substring
`in`). -/
def pyInStr (needle : List Char) : List Char → Bool
  | [] => needle.isEmpty
  | c :: t => List.isPrefixOf needle (c :: t) || pyInStr needle t

/-- Python `key in v` for the container kinds supporting it: key
membership for a dict, element membership (via `==`) for a list,
substring containment for a string; `Option.none` models the
`TypeError` other kinds raise. -/
def pyContains (key : String) : PyVal → Option Bool
  | .dict d => some (Dict.get? d key).isSome
  | .list xs => some (xs.any (fun x => x.pyEq (.str key)))
  | .str s => some (pyInStr key.data s.data)
  | _ => Option.none

/-- First loop of `_validate_manifest`: `field not in self.manifest`
raises in list order. -/
def checkFields (m : Dict PyVal) : List String → Except ManifestErr Unit
  | [] => .ok ()
  | f :: t => if (m.get? f).isNone then .error (.missingField f) else checkFields m t

/-- Second loop of `_validate_manifest`: `field not in metadata` in
list order, where `metadata` is whatever Python value the manifest
holds under that key. -/
def checkMetadataFields (md : PyVal) : List String → Except ManifestErr Unit
  | [] => .ok ()
  | f :: t =>
    match pyContains f md with
    | Option.none => .error .metadataTypeErr
    | some true => checkMetadataFields md t
    | some false => .error (.missingMetadata f)

/-- `BaseAgent._validate_manifest` as run by `__init__`: the required
top-level keys, then the required metadata keys against
`manifest.get('metadata', {})`.  Construction succeeds exactly when
this returns `ok`. -/
def validateManifest (m : Dict PyVal) : Except ManifestErr Unit :=
  seqE (checkFields m requiredFields)
    (checkMetadataFields ((m.get? "metadata").getD (.dict [])) requiredMetadata)

/-- One registered event handler: an identifier plus the handler body;
`Except.error` carries the text of the exception the handler raises. -/
structure Handler where
  hid : Nat
  run : PyVal → Except String Unit

/-- `BaseAgent.on_event`: create the type's handler list when absent,
then append the handler at the end. -/
def onEvent (hs : Dict (List Handler)) (etype : String) (h : Handler) :
    Dict (List Handler) :=
  match hs.get? etype with
  | Option.none => hs.set etype [h]
  | some l => hs.set etype (l ++ [h])

/-- Delivery loop of `BaseAgent._emit_event`: invoke each handler in
list order inside `try/except`; a raising handler is caught, routed to
`self.log` — which emits a `log` event carrying the error message —
and the loop continues with the next handler.  Returns the handler ids
invoked, in order, and the log messages produced.  The function is
total: no handler failure propagates to the publisher. -/
def deliver (payload : PyVal) : List Handler → List Nat × List String
  | [] => ([], [])
  | h :: t =>
    let rest := deliver payload t
    match h.run payload with
    | .ok _ => (h.hid :: rest.1, rest.2)
    | .error e => (h.hid :: rest.1, ("Error in event handler: " ++ e) :: rest.2)

/-- `BaseAgent._emit_event`: publishing with no handler list registered
for the type is a silent no-op; otherwise deliver to the type's list. -/
def emitEvent (hs : Dict (List Handler)) (etype : String) (payload : PyVal) :
    List Nat × List String :=
  match hs.get? etype with
  | Option.none => ([], [])
  | some l => deliver payload l

/-- Lookup of a key in an event payload dict. -/
def pyGetKey : PyVal → String → Option PyVal
  | .dict d, k => Dict.get? d k
  | _, _ => Option.none

/-- Trivial manifest fixture (no declared fields, no default config)
for the concrete witnesses. -/
def man₀ : Manifest := ⟨"a1", [], [], []⟩

/-- Context fixture. -/
def ctx₀ : AgentContext := ⟨"a1", "s1", Option.none, []⟩

/-- State of an agent whose `initialize` has completed. -/
def runState : AgentState := ⟨some ctx₀, [], true, ⟨"healthy", [], []⟩⟩

/-- Manifest mapping holding every required key. -/
def metadataFull : Dict PyVal :=
  [("author", .str "x"), ("tags", .list []), ("category", .str "c")]

/-- Complete manifest fixture. -/
def manifestFull : Dict PyVal :=
  [("id", .str "a1"), ("name", .str "n"), ("version", .str "1"),
   ("description", .str "d"), ("runtime", .str "python"),
   ("inputs", .dict []), ("outputs", .dict []), ("metadata", .dict metadataFull)]

/-- Manifest fixture missing the required `metadata` key. -/
def manifestNoMeta : Dict PyVal :=
  [("id", .str "a1"), ("name", .str "n"), ("version", .str "1"),
   ("description", .str "d"), ("runtime", .str "python"),
   ("inputs", .dict []), ("outputs", .dict [])]

/-- C5: for every agent that has not been initialized or has already
been shut down (running flag false), `execute` fails with the
not-running `RuntimeError` for every input, and emits no `task:*`
event (the event trace of the call is empty). -/
theorem execute_not_running (man : Manifest) (s : AgentState)
    (hook : Dict PyVal → Except String (Dict PyVal)) (input : Dict PyVal)
    (tid : String) (t0 t1 : ℚ) (h : s.is_running = false) :
    execute man s hook input tid t0 t1 = (.error .notRunning, []) := by
  simp [execute, h]

/-- Witness for C5 at the freshly constructed state. -/
theorem execute_not_running_witness :
    execute man₀ initialState (fun _ => .ok []) [] "t" 0 0 =
      (.error .notRunning, []) :=
  execute_not_running man₀ initialState (fun _ => .ok []) [] "t" 0 0 rfl

/-- C10: `shutdown` clears the running flag before awaiting the
`on_shutdown` hook, so when the hook raises the error propagates, the
agent is nevertheless no longer running, no `agent:shutdown` event is
emitted for the failed call, and a subsequent `execute` fails with the
not-running error emitting nothing. -/
theorem shutdown_clears_flag_before_hook (man : Manifest) (s : AgentState) (e : String)
    (hook : Dict PyVal → Except String (Dict PyVal)) (input : Dict PyVal)
    (tid : String) (t0 t1 : ℚ) :
    (shutdown man s (.error e)).1 = .error e ∧
    (shutdown man s (.error e)).2.1.is_running = false ∧
    (shutdown man s (.error e)).2.2 = [] ∧
    execute man (shutdown man s (.error e)).2.1 hook input tid t0 t1 =
      (.error .notRunning, []) := by
  refine ⟨rfl, rfl, rfl, ?_⟩
  simp [execute, shutdown]

/-- C9: a boolean passes the type check of a `number` field — Python's
`isinstance(value, (int, float))` holds for `bool`, a subclass of
`int` — and is then compared numerically against `min`/`max`
(`True` as 1, `False` as 0), even though the schema language has a
separate `boolean` type with its own check. -/
theorem number_check_accepts_boolean (b : Bool) (path : String) :
    typeCheck (some "number") (.bool b) path = .ok () ∧
    validateValue (.bool b) ⟨some "number", true, Option.none⟩ path = .ok () ∧
    validateValue (.bool b)
        ⟨some "number", true,
         some ⟨some (.int 1), Option.none, Option.none, Option.none, Option.none,
               Option.none⟩⟩ path =
      (if b then .ok () else .error (.minViol path)) ∧
    typeCheck (some "boolean") (.bool b) path = .ok () := by
  cases b <;> exact ⟨rfl, rfl, rfl, rfl⟩

theorem runTask_ne_notRunning (man : Manifest)
    (hook : Dict PyVal → Except String (Dict PyVal)) (input : Dict PyVal) :
    runTask man hook input ≠ .error .notRunning := by
  unfold runTask
  cases h₁ : validateInput man.inputs input with
  | error e => simp
  | ok u =>
    cases h₂ : hook input with
    | error e => simp
    | ok r =>
      cases h₃ : validateOutput man.outputs r with
      | error e => simp [h₃]
      | ok u' => simp [h₃]

/-- C1 counterexample: when the `on_initialize` hook raises, the call
propagates the error, yet the agent IS running afterwards (the flag is
assigned before the hook is awaited) and a subsequent `execute`
succeeds rather than failing as invalid. -/
theorem running_after_failed_initialize :
    (initializeAgent man₀ initialState ctx₀ [] (.error "boom")).1 = .error "boom" ∧
    (initializeAgent man₀ initialState ctx₀ [] (.error "boom")).2.1.is_running = true ∧
    (execute man₀ (initializeAgent man₀ initialState ctx₀ [] (.error "boom")).2.1
        (fun _ => .ok []) [] "t" 0 0).1 = .ok [] := by
  exact ⟨rfl, rfl, rfl⟩

/-- C1 (amended): the running flag is assigned by `initialize` before
the `on_initialize` hook is awaited, so after `initialize` returns —
successfully or with a hook exception — the agent is running; after a
`shutdown` call it is not running; and `execute` fails with the
not-running error exactly when the flag is false. -/
theorem running_flag_lifecycle (man : Manifest) (s : AgentState) (ctx : AgentContext)
    (cfg : Dict PyVal) (hi hsd : Except String Unit)
    (hook : Dict PyVal → Except String (Dict PyVal)) (input : Dict PyVal)
    (tid : String) (t0 t1 : ℚ) :
    (initializeAgent man s ctx cfg hi).2.1.is_running = true ∧
    (shutdown man s hsd).2.1.is_running = false ∧
    ((execute man s hook input tid t0 t1).1 = .error .notRunning ↔
      s.is_running = false) := by
  refine ⟨?_, ?_, ?_⟩
  · cases hi <;> rfl
  · cases hsd <;> rfl
  · cases hr : s.is_running with
    | false => simp [execute, hr]
    | true =>
      simp only [execute, hr]
      cases hrt : runTask man hook input with
      | ok r => simp [hrt]
      | error e =>
        simp only [hrt, Bool.false_eq_true, if_false]
        constructor
        · intro hco
          exact absurd (hrt.trans (by simpa using hco)) (runTask_ne_notRunning man hook input)
        · intro hco
          cases hco

/-- C6: event delivery is in subscription order with per-handler
failure isolation: every handler registered for the type is invoked,
in subscription order; a raising handler does not stop delivery to the
later handlers and contributes exactly one message routed to the
logging path (a `log` event); `deliver`/`emitEvent` are total, so no
handler failure propagates out of the publish call; and subscribing H1
then H2 to a type on a fresh bus and publishing that type invokes H1
before H2. -/
theorem handler_isolation_and_order (payload : PyVal) (l : List Handler)
    (et : String) (h₁ h₂ : Handler) :
    (deliver payload l).1 = l.map Handler.hid ∧
    (deliver payload l).2 = l.filterMap (fun h =>
        match h.run payload with
        | .ok _ => Option.none
        | .error e => some ("Error in event handler: " ++ e)) ∧
    emitEvent (onEvent (onEvent [] et h₁) et h₂) et payload = deliver payload [h₁, h₂] ∧
    (deliver payload [h₁, h₂]).1 = [h₁.hid, h₂.hid] := by
  refine ⟨?_, ?_, ?_, ?_⟩
  · induction l with
    | nil => rfl
    | cons h t ih =>
      cases hrun : h.run payload <;> simp [deliver, hrun, ih]
  · induction l with
    | nil => rfl
    | cons h t ih =>
      cases hrun : h.run payload <;> simp [deliver, hrun, ih]
  · simp [onEvent, emitEvent, Dict.get?, Dict.set]
  · cases hrun₁ : h₁.run payload <;> cases hrun₂ : h₂.run payload <;>
      simp [deliver, hrun₁, hrun₂]

/-- C2 counterexample: on a concrete successful `execute` call the
terminal event has no field named `execution_time_ms`; the elapsed
milliseconds are stored under `execution_time`. -/
theorem execution_time_field_name :
    ((execute man₀ runState (fun _ => .ok []) [] "t" 0 1).2.map Prod.fst =
      ["task:started", "task:completed"]) ∧
    ((execute man₀ runState (fun _ => .ok []) [] "t" 0 1).2.getLast?.map
        (fun ev => pyGetKey ev.2 "execution_time_ms") = some Option.none) ∧
    ((execute man₀ runState (fun _ => .ok []) [] "t" 0 1).2.getLast?.map
        (fun ev => pyGetKey ev.2 "execution_time") =
      some (some (.float ((1 - 0) * 1000)))) := by
  exact ⟨rfl, rfl, rfl⟩

/-- C2 (amended): every `execute` call on a running agent emits
exactly one `task:started` event followed by exactly one terminal
event — `task:completed` when the call returns a result, `task:failed`
when it propagates a failure — and the terminal payload stores the
elapsed wall time in milliseconds, a non-negative value when the clock
is monotone, under the field `execution_time` (not
`execution_time_ms`). -/
theorem execute_event_protocol (man : Manifest) (s : AgentState)
    (hook : Dict PyVal → Except String (Dict PyVal)) (input : Dict PyVal)
    (tid : String) (t0 t1 : ℚ) (hr : s.is_running = true) (ht : t0 ≤ t1) :
    ∃ p q : PyVal,
      (execute man s hook input tid t0 t1).2 =
        [("task:started", p),
         ((match (execute man s hook input tid t0 t1).1 with
           | .ok _ => "task:completed"
           | .error _ => "task:failed"), q)] ∧
      pyGetKey q "execution_time" = some (.float ((t1 - t0) * 1000)) ∧
      pyGetKey q "execution_time_ms" = Option.none ∧
      0 ≤ (t1 - t0) * 1000 := by
  have hel : (0 : ℚ) ≤ (t1 - t0) * 1000 := mul_nonneg (by linarith) (by norm_num)
  cases hrt : runTask man hook input with
  | ok r =>
    refine ⟨.dict [("task_id", .str tid), ("input", .dict input),
                   ("agent_id", .str man.id)],
            .dict [("task_id", .str tid), ("result", .dict r),
                   ("execution_time", .float ((t1 - t0) * 1000)),
                   ("agent_id", .str man.id)],
            ?_, ?_, ?_, hel⟩
    · simp [execute, hr, hrt]
    · simp [pyGetKey, Dict.get?]
    · simp [pyGetKey, Dict.get?]
  | error e =>
    refine ⟨.dict [("task_id", .str tid), ("input", .dict input),
                   ("agent_id", .str man.id)],
            .dict [("task_id", .str tid), ("error", .str (errStr e)),
                   ("execution_time", .float ((t1 - t0) * 1000)),
                   ("agent_id", .str man.id)],
            ?_, ?_, ?_, hel⟩
    · simp [execute, hr, hrt]
    · simp [pyGetKey, Dict.get?]
    · simp [pyGetKey, Dict.get?]

/-- Witness for C2 at a concrete successful call with clock readings
0 and 1 seconds. -/
theorem execute_event_protocol_witness :
    ∃ p q : PyVal,
      (execute man₀ runState (fun _ => .ok []) [] "t" 0 1).2 =
        [("task:started", p),
         ((match (execute man₀ runState (fun _ => .ok []) [] "t" 0 1).1 with
           | .ok _ => "task:completed"
           | .error _ => "task:failed"), q)] ∧
      pyGetKey q "execution_time" = some (.float ((1 - 0) * 1000)) ∧
      pyGetKey q "execution_time_ms" = Option.none ∧
      (0 : ℚ) ≤ (1 - 0) * 1000 :=
  execute_event_protocol man₀ runState (fun _ => .ok []) [] "t" 0 1 rfl (by norm_num)

/-- C3 counterexample: for the pattern `a` and the string value
`"ab"`, the full match fails — only the prefix `"a"` matches — yet the
constraint check succeeds, because `re.match` anchors at the start of
the string only. -/
theorem pattern_prefix_match_accepted :
    validateConstraints (.str "ab") (patternOnly (.char 'a')) "f" = .ok () ∧
    Regex.rmatch (.char 'a') "ab".data = false ∧
    Regex.matchAtStart (.char 'a') "ab".data = true := by
  exact ⟨rfl, by decide, by decide⟩

/-- C3 (amended): for every field schema whose constraints hold only a
pattern, validation succeeds exactly when the regular expression
matches a PREFIX of the string representation of the value (the
anchored-at-start semantics of `re.match`), failing with the pattern
`ValidationError` for that field otherwise; matching a prefix is
equivalent to some prefix of the string being fully matched. -/
theorem pattern_requires_prefix_match (r : Regex) (v : PyVal) (path : String) :
    validateConstraints v (patternOnly r) path =
      (if Regex.matchAtStart r (v.pyStr).data then .ok ()
       else .error (.patternViol path)) ∧
    (Regex.matchAtStart r (v.pyStr).data = true ↔
      ∃ p q, (v.pyStr).data = p ++ q ∧ Regex.rmatch r p = true) := by
  refine ⟨?_, Regex.matchAtStart_iff_prefix r (v.pyStr).data⟩
  simp only [validateConstraints, patternOnly, checkMin, checkMax, checkMinLength,
             checkMaxLength, checkPattern, checkEnum, seqE]
  cases Regex.matchAtStart r (v.pyStr).data <;> simp

/-- C4: presence checking is asymmetric — a declared input field
absent from the input fails only when the schema marks it required
(an absent non-required field is skipped), while a declared output
field absent from the hook's result always fails, whatever its
`required` flag. -/
theorem input_output_presence_asymmetry (k : String) (sch : FieldSchema)
    (input output : Dict PyVal)
    (hin : input.get? k = Option.none) (hout : output.get? k = Option.none) :
    (checkInputField input k sch = .ok () ↔ sch.required = false) ∧
    checkOutputField output k sch = .error (.missingOutput k) ∧
    validateInput [(k, sch)] input =
      (if sch.required then .error (.missingInput k) else .ok ()) ∧
    validateOutput [(k, sch)] output = .error (.missingOutput k) := by
  refine ⟨?_, ?_, ?_, ?_⟩
  · cases hreq : sch.required <;> simp [checkInputField, hin, hreq]
  · simp [checkOutputField, hout]
  · cases hreq : sch.required <;>
      simp [validateInput, checkInputField, hin, hreq, seqE]
  · simp [validateOutput, checkOutputField, hout, seqE]

/-- Witness for C4: a non-required number field, empty input and empty
output mappings. -/
theorem input_output_presence_asymmetry_witness :
    (checkInputField [] "f" ⟨some "number", false, Option.none⟩ = .ok () ↔
      (⟨some "number", false, Option.none⟩ : FieldSchema).required = false) ∧
    checkOutputField [] "f" ⟨some "number", false, Option.none⟩ =
      .error (.missingOutput "f") ∧
    validateInput [("f", ⟨some "number", false, Option.none⟩)] [] =
      (if (⟨some "number", false, Option.none⟩ : FieldSchema).required
       then .error (.missingInput "f") else .ok ()) ∧
    validateOutput [("f", ⟨some "number", false, Option.none⟩)] [] =
      .error (.missingOutput "f") :=
  input_output_presence_asymmetry "f" ⟨some "number", false, Option.none⟩ [] [] rfl rfl

/-- C7: health updates merge rather than replace — a given status
replaces the current status wholesale (and is retained when omitted),
given `details`/`metrics` mappings are merged key-by-key (new keys
added, existing keys overwritten, omitted keys retained), every update
emits a `health:updated` event carrying the full resulting snapshot,
and the spec's example sequence of metric updates produces
`{"a":1,"b":2}` and then `{"a":3,"b":2}`. -/
theorem health_update_merges (h : AgentHealth) (st : String) (d : Dict PyVal)
    (m : Dict ℚ) (k : String) :
    (updateHealth h (some st) Option.none Option.none).1.status = st ∧
    (updateHealth h Option.none (some d) (some m)).1.status = h.status ∧
    ((updateHealth h Option.none Option.none (some m)).1.metrics.get? k =
      (m.lastVal k).or (h.metrics.get? k)) ∧
    ((updateHealth h Option.none (some d) Option.none).1.details.get? k =
      (d.lastVal k).or (h.details.get? k)) ∧
    (updateHealth h Option.none Option.none Option.none).1 = h ∧
    (updateHealth h (some st) (some d) (some m)).2 =
      ("health:updated", healthAsVal (updateHealth h (some st) (some d) (some m)).1) ∧
    ((updateHealth (updateHealth (⟨"healthy", [], []⟩ : AgentHealth)
        Option.none Option.none (some [("a", 1)])).1
        Option.none Option.none (some [("b", 2)])).1.metrics =
      [("a", 1), ("b", 2)]) ∧
    ((updateHealth (updateHealth (updateHealth (⟨"healthy", [], []⟩ : AgentHealth)
        Option.none Option.none (some [("a", 1)])).1
        Option.none Option.none (some [("b", 2)])).1
        Option.none Option.none (some [("a", 3)])).1.metrics =
      [("a", 3), ("b", 2)]) := by
  refine ⟨rfl, rfl, ?_, ?_, rfl, rfl, by decide, by decide⟩
  · simpa [updateHealth] using Dict.get_updateD h.metrics m k
  · simpa [updateHealth] using Dict.get_updateD h.details d k

theorem checkFields_ok_iff (m : Dict PyVal) (fs : List String) :
    checkFields m fs = .ok () ↔ ∀ f ∈ fs, (m.get? f).isSome := by
  induction fs with
  | nil => simp [checkFields]
  | cons f t ih =>
    cases hmf : m.get? f with
    | none => simp [checkFields, hmf, ih]
    | some v => simp [checkFields, hmf, ih]

theorem checkMetadataFields_ok_iff (md : Dict PyVal) (fs : List String) :
    checkMetadataFields (.dict md) fs = .ok () ↔
      ∀ f ∈ fs, (Dict.get? md f).isSome := by
  induction fs with
  | nil => simp [checkMetadataFields]
  | cons f t ih =>
    cases hmf : Dict.get? md f with
    | none => simp [checkMetadataFields, pyContains, hmf, ih]
    | some v => simp [checkMetadataFields, pyContains, hmf, ih]

/-- C8: for every manifest whose `metadata` key is absent or holds a
mapping `md`, construction (which runs `_validate_manifest`) succeeds
exactly when all required top-level keys — `metadata` among them — and
all required metadata keys are present in `md`; missing any of them
fails with a manifest error.  A manifest without the `metadata` key is
covered by the first disjunct: the top-level loop fails on it, and the
right-hand side is false at `f = "metadata"`. -/
theorem manifest_required_keys (m md : Dict PyVal)
    (hmd : m.get? "metadata" = Option.none ∨ m.get? "metadata" = some (.dict md)) :
    validateManifest m = .ok () ↔
      ((∀ f ∈ requiredFields, (m.get? f).isSome) ∧
       ∀ f ∈ requiredMetadata, (Dict.get? md f).isSome) := by
  cases hmd with
  | inr hmd =>
    unfold validateManifest
    rw [hmd]
    simp only [Option.getD_some]
    constructor
    · intro hok
      cases hcf : checkFields m requiredFields with
      | error e => rw [hcf, seqE_error] at hok; cases hok
      | ok u =>
        obtain ⟨⟩ := u
        rw [hcf, seqE_ok] at hok
        exact ⟨(checkFields_ok_iff m _).mp hcf, (checkMetadataFields_ok_iff md _).mp hok⟩
    · rintro ⟨h1, h2⟩
      rw [(checkFields_ok_iff m requiredFields).mpr h1, seqE_ok]
      exact (checkMetadataFields_ok_iff md requiredMetadata).mpr h2
  | inl hmd =>
    have hmem : "metadata" ∈ requiredFields := by decide
    constructor
    · intro hok
      unfold validateManifest at hok
      cases hcf : checkFields m requiredFields with
      | error e => rw [hcf, seqE_error] at hok; cases hok
      | ok u =>
        obtain ⟨⟩ := u
        have hall := (checkFields_ok_iff m requiredFields).mp hcf
        have h2 := hall "metadata" hmem
        rw [hmd] at h2
        simp at h2
    · rintro ⟨h1, h2⟩
      have h3 := h1 "metadata" hmem
      rw [hmd] at h3
      simp at h3

/-- Witness for C8 on both sides: the complete manifest fixture
constructs successfully, and the fixture missing the `metadata` key
fails construction. -/
theorem manifest_required_keys_witness :
    validateManifest manifestFull = .ok () ∧
    validateManifest manifestNoMeta ≠ .ok () :=
  ⟨(manifest_required_keys manifestFull metadataFull (Or.inr rfl)).mpr (by decide),
   fun h =>
     absurd ((manifest_required_keys manifestNoMeta [] (Or.inl rfl)).mp h) (by decide)⟩

end AgentSdk
